import Mathlib

/-!
# Kanali: schema readiness gate, ApiKeyBinding controller and process start-up

A shallow embedding of

* `pkg/crds/utils.go` (`WaitForEstablished`),
* `pkg/controller/apikeybinding/apikeybinding_controller.go` (`OnAdd`, `OnUpdate`, `OnDelete`),
* `cmd/kanali/app/kanali.go` (`Run`, `createClientsets`),

with the effects of each function made explicit as a trace that is threaded through the
definitions.  Sleeping between polls is recorded as a count only: the durations
(`Duration`, `Factor`, `Jitter`) are floating point quantities that decide how long a sleep
lasts, never whether a poll happens.
-/

namespace Kanali

/-! ## Go error values -/

/-- Go `error` values as far as the embedded code can tell them apart.  `errWaitTimeout` is
the package level sentinel `utilwait.ErrWaitTimeout`, compared by identity in
`WaitForEstablished`; `errorf` is a value freshly built by `fmt.Errorf` (never identical to
the sentinel); `client` is any other error handed back by a collaborator. -/
inductive GoError where
  | errWaitTimeout
  | errorf (msg : String)
  | client (msg : String)
  deriving DecidableEq, Repr

/-- The method `Error()` of an error value. -/
def GoError.Error : GoError → String
  | .errWaitTimeout => "timed out waiting for the condition"
  | .errorf msg => msg
  | .client msg => msg

/-! ## `pkg/crds/utils.go` -/

/-- The type `apiextensionsv1beta1.CustomResourceDefinitionCondition`; `type` and `Status`
are string types in Go, so any string may occur. -/
structure CustomResourceDefinitionCondition where
  type : String
  Status : String
  Reason : String
  Message : String
  deriving DecidableEq, Repr

/-- The part of `apiextensionsv1beta1.CustomResourceDefinition` that `WaitForEstablished`
reads: `ObjectMeta.Name` and `Status.Conditions`. -/
structure CustomResourceDefinition where
  Name : String
  Conditions : List CustomResourceDefinitionCondition
  deriving DecidableEq, Repr

/-- The constant `apiextensionsv1beta1.Established`. -/
def Established : String := "Established"

/-- The constant `apiextensionsv1beta1.NamesAccepted`. -/
def NamesAccepted : String := "NamesAccepted"

/-- The constant `apiextensionsv1beta1.ConditionTrue`. -/
def ConditionTrue : String := "True"

/-- The constant `apiextensionsv1beta1.ConditionFalse`. -/
def ConditionFalse : String := "False"

/-- The package variable `crdEstablishedNumRetries`, with its initial value. -/
def crdEstablishedNumRetries : Int := 5

/-- The text built by `fmt.Errorf` at utils.go line 77. -/
def namingConflictText (reason name : String) : String :=
  "due to the naming conflict " ++ reason ++ ", the CustomResourceDefinition " ++ name ++
    " will never become established"

/-- The text built by `fmt.Errorf` at utils.go line 85. -/
def timeoutText (name : String) : String :=
  "the CustomResourceDefinition " ++ name ++
    " was not established within a reasonable amount of time"

/-- The client `i`: what the call number `k` (counted from 0) of
`i.CustomResourceDefinitions().Get(name, ...)` hands back. -/
abbrev CRDClient := Nat → String → Except GoError CustomResourceDefinition

/-- The stop channel `stopCh`: whether the signal has been raised by the time of poll `k`. -/
abbrev StopCh := Nat → Bool

/-- The effects of one call of `WaitForEstablished`: the names passed to `Get`, in call
order, and the number of `time.Sleep` calls made by the backoff loop. -/
structure PollTrace where
  gets : List String
  sleeps : Nat
  deriving DecidableEq, Repr

/-- The trace before anything has happened. -/
def PollTrace.init : PollTrace := ⟨[], 0⟩

/-- The number of polls made. -/
def PollTrace.polls (t : PollTrace) : Nat := t.gets.length

/-- The `for _, cond := range crd.Status.Conditions` loop with its `switch` (utils.go lines
66 to 81), as the pair `(bool, error)` the closure returns; `name` is the name of the
fetched resource. -/
def scanConditions (name : String) :
    List CustomResourceDefinitionCondition → Bool × Option GoError
  | [] => (false, none)
  | cond :: rest =>
    if cond.type = Established then
      if cond.Status = ConditionTrue then (true, none)
      else scanConditions name rest
    else if cond.type = NamesAccepted then
      if cond.Status = ConditionFalse then
        (false, some (GoError.errorf (namingConflictText cond.Reason name)))
      else scanConditions name rest
    else scanConditions name rest

/-- What the closure passed to `ExponentialBackoff` returns when it makes the call number
`k` of `Get`: the fetch error, or the verdict of the scan over the fetched conditions.  The
name passed to `Get` is that of the resource given to `WaitForEstablished`; the name in the
naming conflict text is that of the fetched resource, which shadows it. -/
def pollOutcome (i : CRDClient) (crd : CustomResourceDefinition) (k : Nat) :
    Bool × Option GoError :=
  match i k crd.Name with
  | .error err => (false, some err)
  | .ok fetched => scanConditions fetched.Name fetched.Conditions

/-- The closure passed to `ExponentialBackoff` (utils.go lines 57 to 82), with the `Get`
call recorded in the trace. -/
def condition (i : CRDClient) (crd : CustomResourceDefinition) (t : PollTrace) :
    (Bool × Option GoError) × PollTrace :=
  (pollOutcome i crd t.gets.length, { t with gets := t.gets ++ [crd.Name] })

/-- The loop of `utilwait.ExponentialBackoff`:
`for i := 0; i < backoff.Steps; i++ { if i != 0 { time.Sleep(..) }; if ok, err :=
condition(); err != nil || ok { return err } }; return ErrWaitTimeout`.
The first argument is `i`, the second the number of iterations left; `r.1.1` and `r.1.2`
are the `ok` and `err` of the call of `condition`. -/
def backoffLoop (cond : PollTrace → (Bool × Option GoError) × PollTrace) :
    Nat → Nat → PollTrace → Option GoError × PollTrace
  | _, 0, t => (some GoError.errWaitTimeout, t)
  | i, left + 1, t =>
    let t1 := if i ≠ 0 then { t with sleeps := t.sleeps + 1 } else t
    let r := cond t1
    if r.1.2 ≠ none ∨ r.1.1 = true then (r.1.2, r.2)
    else backoffLoop cond (i + 1) left r.2

/-- The function `utilwait.ExponentialBackoff` for a backoff of `Steps` steps. -/
def ExponentialBackoff (Steps : Int)
    (cond : PollTrace → (Bool × Option GoError) × PollTrace) (t : PollTrace) :
    Option GoError × PollTrace :=
  backoffLoop cond 0 Steps.toNat t

/-- The function `WaitForEstablished` (utils.go lines 47 to 88).  `numRetries` is the value
of the package variable `crdEstablishedNumRetries` at the time of the call.  The result is
the returned error (`none` for `nil`) and the trace of the call.  The parameter `stopCh` is
not read by the body. -/
def WaitForEstablished (numRetries : Int) (i : CRDClient) (crd : CustomResourceDefinition)
    (_stopCh : StopCh) : Option GoError × PollTrace :=
  let r := ExponentialBackoff numRetries (condition i crd) PollTrace.init
  if r.1 = some GoError.errWaitTimeout then
    (some (GoError.errorf (timeoutText crd.Name)), r.2)
  else (r.1, r.2)

/-! ### The fixtures of `utils_test.go` -/

/-- The test fixture `establishedCondition`. -/
def establishedCondition : CustomResourceDefinitionCondition :=
  ⟨Established, ConditionTrue, "InitialNamesAccepted", "the initial names have been accepted"⟩

/-- The test fixture `notEstablishedCondition`. -/
def notEstablishedCondition : CustomResourceDefinitionCondition :=
  ⟨Established, ConditionFalse, "NotAccepted", "not all names are accepted"⟩

/-- The test fixture `acceptedCondition`. -/
def acceptedCondition : CustomResourceDefinitionCondition :=
  ⟨NamesAccepted, ConditionTrue, "NoConflicts", "no conflicts found"⟩

/-- The test fixture `notAcceptedCondition`. -/
def notAcceptedCondition : CustomResourceDefinitionCondition :=
  ⟨NamesAccepted, ConditionFalse, "TestConflict", "conflicts found"⟩

/-- A client that serves the same resource at every call, like the fake clientset of the
test after `Create`. -/
def constClient (crd : CustomResourceDefinition) : CRDClient := fun _ _ => Except.ok crd

/-- The resource `newCRD("foos.bar.io")` of the test, with the given conditions. -/
def foos (conds : List CustomResourceDefinitionCondition) : CustomResourceDefinition :=
  ⟨"foos.bar.io", conds⟩

/-- A condition `Established` with status `True`. -/
def IsEstablishedTrue (c : CustomResourceDefinitionCondition) : Prop :=
  c.type = Established ∧ c.Status = ConditionTrue

/-- A condition `NamesAccepted` with status `False`. -/
def IsNamesAcceptedFalse (c : CustomResourceDefinitionCondition) : Prop :=
  c.type = NamesAccepted ∧ c.Status = ConditionFalse

instance (c : CustomResourceDefinitionCondition) : Decidable (IsEstablishedTrue c) := by
  unfold IsEstablishedTrue
  infer_instance

instance (c : CustomResourceDefinitionCondition) : Decidable (IsNamesAcceptedFalse c) := by
  unfold IsNamesAcceptedFalse
  infer_instance


/-- Poll `k` ends the loop: the closure reports an error or `ok`. -/
def stops (i : CRDClient) (crd : CustomResourceDefinition) (k : Nat) : Prop :=
  (pollOutcome i crd k).2 ≠ none ∨ (pollOutcome i crd k).1 = true

instance (i : CRDClient) (crd : CustomResourceDefinition) (k : Nat) :
    Decidable (stops i crd k) := by
  unfold stops
  infer_instance

/-! ## `pkg/apis/kanali.io/v2/types.go`: the ApiKeyBinding resource -/

/-- The type `GranularProxy`. -/
structure GranularProxy where
  Verbs : List String
  deriving DecidableEq, Repr

/-- The type `Rule`. -/
structure Rule where
  Global : Bool
  Granular : GranularProxy
  deriving DecidableEq, Repr

set_option linter.dupNamespace false in
/-- The type `Path`. -/
structure Path where
  Path : String
  Rule : Rule
  deriving DecidableEq, Repr

/-- The type `Rate`. -/
structure Rate where
  Amount : Int
  Unit : String
  deriving DecidableEq, Repr

/-- The type `Key`. -/
structure Key where
  Name : String
  Rate : Rate
  DefaultRule : Rule
  Subpaths : List Path
  deriving DecidableEq, Repr

/-- The type `ApiKeyBindingSpec`. -/
structure ApiKeyBindingSpec where
  Keys : List Key
  deriving DecidableEq, Repr

/-- The type `ApiKeyBinding`, with the two fields of `ObjectMeta` that the controller reads
through `GetName` and `GetNamespace`. -/
structure ApiKeyBinding where
  Name : String
  Namespace : String
  Spec : ApiKeyBindingSpec
  deriving DecidableEq, Repr

/-! ## `pkg/controller/apikeybinding/apikeybinding_controller.go` -/

/-- A value of type `interface{}` as the callbacks receive it: a (non-nil) `*v2.ApiKeyBinding`,
or a value of any other dynamic type, the nil interface included. -/
inductive Obj where
  | apiKeyBinding (b : ApiKeyBinding)
  | other (dynamicType : String)
  deriving DecidableEq, Repr

/-- The type assertion `obj.(*v2.ApiKeyBinding)` in its comma-ok form: `some binding` when
`ok`, `none` otherwise.  This form never panics. -/
def Obj.assertApiKeyBinding : Obj → Option ApiKeyBinding
  | .apiKeyBinding b => some b
  | .other _ => none

/-- The three operations of `store.ApiKeyBindingStore()` that the controller calls, over a
store state `σ`.  The package `pkg/store/kanali/v2` is not among the sources, so the store is
a parameter of the controller. -/
structure ApiKeyBindingStoreInterface (σ : Type) where
  Set : σ → ApiKeyBinding → σ
  Update : σ → ApiKeyBinding → ApiKeyBinding → σ
  Delete : σ → ApiKeyBinding → Option GoError × σ

/-- A call made on the store. -/
inductive StoreOp where
  | Set (b : ApiKeyBinding)
  | Update (old new : ApiKeyBinding)
  | Delete (b : ApiKeyBinding)
  deriving DecidableEq, Repr

/-- A line written through the logger: `logger.Error(msg)`, or `logger.Debug(msg)` with the
two fields `tags.KanaliApiKeyBindingName` and `tags.KanaliApiKeyBindingNamespace`. -/
inductive LogEntry where
  | Error (msg : String)
  | Debug (msg : String) (name ns : String)
  deriving DecidableEq, Repr

/-- What the callbacks act on: the state of the store, the calls made on the store so far
and the lines logged so far. -/
structure ControllerState (σ : Type) where
  store : σ
  ops : List StoreOp
  log : List LogEntry

/-- The method `OnAdd` (lines 38 to 50). -/
def OnAdd {σ : Type} (st : ApiKeyBindingStoreInterface σ) (obj : Obj)
    (w : ControllerState σ) : ControllerState σ :=
  match obj.assertApiKeyBinding with
  | none =>
    { w with log := w.log ++ [LogEntry.Error "received malformed ApiKeyBinding from k8s apiserver"] }
  | some binding =>
    { store := st.Set w.store binding
      ops := w.ops ++ [StoreOp.Set binding]
      log := w.log ++ [LogEntry.Debug "added ApiKeyBinding" binding.Name binding.Namespace] }

/-- The method `OnUpdate` (lines 52 to 65). -/
def OnUpdate {σ : Type} (st : ApiKeyBindingStoreInterface σ) (old new : Obj)
    (w : ControllerState σ) : ControllerState σ :=
  match new.assertApiKeyBinding, old.assertApiKeyBinding with
  | some newBinding, some oldBinding =>
    { store := st.Update w.store oldBinding newBinding
      ops := w.ops ++ [StoreOp.Update oldBinding newBinding]
      log := w.log ++
        [LogEntry.Debug "updated ApiKeyBinding" newBinding.Name newBinding.Namespace] }
  | _, _ =>
    { w with log := w.log ++ [LogEntry.Error "received malformed ApiKeyBinding from k8s apiserver"] }

/-- The method `OnDelete` (lines 67 to 80): the trace line is written only when `Delete`
returns `nil`; the error is otherwise dropped. -/
def OnDelete {σ : Type} (st : ApiKeyBindingStoreInterface σ) (obj : Obj)
    (w : ControllerState σ) : ControllerState σ :=
  match obj.assertApiKeyBinding with
  | none =>
    { w with log := w.log ++ [LogEntry.Error "received malformed ApiKeyBinding from k8s apiserver"] }
  | some binding =>
    let r := st.Delete w.store binding
    { store := r.2
      ops := w.ops ++ [StoreOp.Delete binding]
      log := if r.1 = none then
          w.log ++ [LogEntry.Debug "deleted ApiKeyBinding" binding.Name binding.Namespace]
        else w.log }

/-- A notification of the watch layer, as a call of one of the three callbacks of
`cache.ResourceEventHandler`. -/
inductive Notification where
  | add (obj : Obj)
  | update (old new : Obj)
  | delete (obj : Obj)
  deriving DecidableEq, Repr

/-- Delivery of one notification to the controller. -/
def deliver {σ : Type} (st : ApiKeyBindingStoreInterface σ) (n : Notification)
    (w : ControllerState σ) : ControllerState σ :=
  match n with
  | .add obj => OnAdd st obj w
  | .update old new => OnUpdate st old new w
  | .delete obj => OnDelete st obj w

/-- Delivery of a finite sequence of notifications, in order. -/
def deliverAll {σ : Type} (st : ApiKeyBindingStoreInterface σ) :
    List Notification → ControllerState σ → ControllerState σ
  | [], w => w
  | n :: ns, w => deliverAll st ns (deliver st n w)

/-- A notification one of whose objects is not an ApiKeyBinding. -/
def Notification.wrongTyped : Notification → Prop
  | .add obj => obj.assertApiKeyBinding = none
  | .update old new => old.assertApiKeyBinding = none ∨ new.assertApiKeyBinding = none
  | .delete obj => obj.assertApiKeyBinding = none

/-- The store operation the specification assigns to a notification: `Set(b)` for an add of
an ApiKeyBinding `b`, `Update(old, new)` for an update of two ApiKeyBindings, `Delete(b)` for
a delete of an ApiKeyBinding `b`, and nothing for a wrong-typed notification. -/
def specOps : Notification → List StoreOp
  | .add (.apiKeyBinding b) => [StoreOp.Set b]
  | .update (.apiKeyBinding old) (.apiKeyBinding new) => [StoreOp.Update old new]
  | .delete (.apiKeyBinding b) => [StoreOp.Delete b]
  | _ => []

/-- The effect of one store operation on the state of the store. -/
def applyOp {σ : Type} (st : ApiKeyBindingStoreInterface σ) (s : σ) : StoreOp → σ
  | .Set b => st.Set s b
  | .Update old new => st.Update s old new
  | .Delete b => (st.Delete s b).2

/-- The key of an ApiKeyBinding in the store: namespace and name. -/
def bindingKey (b : ApiKeyBinding) : String × String := (b.Namespace, b.Name)

/-- Modelled from the spec: the package `pkg/store/kanali/v2` is missing from the sources.
A store keyed by namespace and name: `Set` overwrites, `Update` replaces the entry by the
new value, `Delete` fails with a not-found error, leaving every entry as it is, when the key
is absent. -/
def mapStore : ApiKeyBindingStoreInterface (List ((String × String) × ApiKeyBinding)) where
  Set m b := (bindingKey b, b) :: m.filter (fun e => e.1 ≠ bindingKey b)
  Update m _ new := (bindingKey new, new) :: m.filter (fun e => e.1 ≠ bindingKey new)
  Delete m b :=
    if m.any (fun e => e.1 = bindingKey b) then (none, m.filter (fun e => e.1 ≠ bindingKey b))
    else (some (GoError.client "not found"), m)

/-- An ApiKeyBinding with the given namespace and name and no keys. -/
def binding (ns name : String) : ApiKeyBinding := ⟨name, ns, ⟨[]⟩⟩

/-! ## `cmd/kanali/app/kanali.go` -/

/-- The four resource schemas handed to `crds.EnsureCRDs`. -/
inductive CRD where
  | ApiProxyCRD
  | ApiKeyCRD
  | ApiKeyBindingCRD
  | MockTargetCRD
  deriving DecidableEq, Repr

/-- What `Run` adds to the run group. -/
inductive Actor where
  | ApiProxyController
  | ApiKeyController
  | ApiKeyBindingController
  | MockTargetController
  | ServicesInformer
  | SecretsInformer
  | Tracer
  | MetricsServer
  | GatewayServer
  | ProfilingServer
  | MonitorContext
  deriving DecidableEq, Repr

/-- The calls `Run` makes on its collaborators, in the order of the trace. -/
inductive Event where
  | GetRestConfig
  | crdNewForConfig
  | kanaliNewForConfig
  | k8sNewForConfig
  | NewSharedInformerFactory (client : String)
  | SetGlobalInterface
  | EnsureCRDs (crds : List CRD)
  | LoadDecryptionKey
  | tracerNew
  | Prepare (name : String)
  | Fatal (msg : String)
  | Info (msg : String)
  | Warn (msg : String)
  | Add (a : Actor)
  | groupRun
  deriving DecidableEq, Repr

/-- How a call of `Run` ends: it returns an error value (`none` for `nil`), or the process is
terminated from inside the call with an exit status. -/
inductive Outcome where
  | returned (err : Option GoError)
  | exited (status : Int)
  deriving DecidableEq, Repr

/-- The collaborators of `Run`, none of which is among the sources: the error (`none` for
`nil`) of each fallible call, the flag read through viper, the result of `g.Run()` for the
actors added, and whether `logger.Fatal` terminates the process.  The logger comes from
`log.WithContext` and is used as a zap logger (`logger.Sugar()`, `zap.String` fields); zap
documents `Fatal` as writing the entry and then calling `os.Exit(1)`. -/
structure RunEnv where
  GetRestConfig : Option GoError
  crdNewForConfig : Option GoError
  kanaliNewForConfig : Option GoError
  k8sNewForConfig : Option GoError
  EnsureCRDs : List CRD → Option GoError
  LoadDecryptionKey : Option GoError
  tracerNew : Option GoError
  FlagProfilingEnabled : Bool
  groupRun : List Actor → Option GoError
  fatalExits : Bool

/-- The function `createClientsets` (lines 149 to 176): its `err` result and the calls it
makes. -/
def createClientsets (env : RunEnv) : Option GoError × List Event :=
  match env.GetRestConfig with
  | some err => (some err, [Event.GetRestConfig])
  | none =>
    match env.crdNewForConfig with
    | some err => (some err, [Event.GetRestConfig, Event.crdNewForConfig])
    | none =>
      match env.kanaliNewForConfig with
      | some err =>
        (some err, [Event.GetRestConfig, Event.crdNewForConfig, Event.kanaliNewForConfig])
      | none =>
        match env.k8sNewForConfig with
        | some err =>
          (some err, [Event.GetRestConfig, Event.crdNewForConfig, Event.kanaliNewForConfig,
            Event.k8sNewForConfig])
        | none =>
          (none, [Event.GetRestConfig, Event.crdNewForConfig, Event.kanaliNewForConfig,
            Event.k8sNewForConfig])

/-- The two statements `logger.Fatal(err.Error()); return err`, after the trace `tr`. -/
def fatalThenReturn (env : RunEnv) (err : GoError) (tr : List Event) : Outcome × List Event :=
  if env.fatalExits then (Outcome.exited 1, tr ++ [Event.Fatal err.Error])
  else (Outcome.returned (some err), tr ++ [Event.Fatal err.Error])

/-- The four schemas in the order of the call at lines 68 to 73. -/
def kanaliCRDs : List CRD :=
  [CRD.ApiProxyCRD, CRD.ApiKeyCRD, CRD.ApiKeyBindingCRD, CRD.MockTargetCRD]

/-- The actors added to the run group at lines 124 to 144, in order. -/
def groupActors (env : RunEnv) : List Actor :=
  [Actor.ApiProxyController, Actor.ApiKeyController, Actor.ApiKeyBindingController,
    Actor.MockTargetController, Actor.ServicesInformer, Actor.SecretsInformer] ++
  (if env.tracerNew = none then [Actor.Tracer] else []) ++
  [Actor.MetricsServer, Actor.GatewayServer] ++
  (if env.FlagProfilingEnabled = true then [Actor.ProfilingServer] else []) ++
  [Actor.MonitorContext]

/-- The function `Run` (lines 53 to 147): how the call ends and the calls it makes. -/
def Run (env : RunEnv) : Outcome × List Event :=
  match createClientsets env with
  | (some err, tr) => fatalThenReturn env err tr
  | (none, tr) =>
    let tr1 := tr ++ [Event.NewSharedInformerFactory "kanali",
      Event.NewSharedInformerFactory "k8s", Event.SetGlobalInterface]
    match env.EnsureCRDs kanaliCRDs with
    | some err => fatalThenReturn env err (tr1 ++ [Event.EnsureCRDs kanaliCRDs])
    | none =>
      let tr2 := tr1 ++ [Event.EnsureCRDs kanaliCRDs,
        Event.Info "all customresourcedefinitions successfully created"]
      match env.LoadDecryptionKey with
      | some err => fatalThenReturn env err (tr2 ++ [Event.LoadDecryptionKey])
      | none =>
        let tr3 := tr2 ++ [Event.LoadDecryptionKey, Event.tracerNew] ++
          (match env.tracerNew with
            | some tracerErr => [Event.Warn tracerErr.Error]
            | none => []) ++
          [Event.Prepare "gateway", Event.Prepare "profiling", Event.Prepare "prometheus"]
        (Outcome.returned (env.groupRun (groupActors env)),
          tr3 ++ (groupActors env).map Event.Add ++ [Event.groupRun])

/-- An environment in which every collaborator succeeds, profiling is off, and the logger
is a zap logger. -/
def healthyEnv : RunEnv where
  GetRestConfig := none
  crdNewForConfig := none
  kanaliNewForConfig := none
  k8sNewForConfig := none
  EnsureCRDs := fun _ => none
  LoadDecryptionKey := none
  tracerNew := none
  FlagProfilingEnabled := false
  groupRun := fun _ => none
  fatalExits := true

/-- An environment whose kubeconfig cannot be read, the logger being a zap logger. -/
def brokenConfigEnv : RunEnv :=
  { healthyEnv with GetRestConfig := some (GoError.client "invalid configuration") }

/-- An environment in which the schema of ApiProxy is never established, the logger handing
control back after `Fatal`. -/
def schemaFailureEnv : RunEnv :=
  { healthyEnv with
    EnsureCRDs := fun _ => some (GoError.errorf (timeoutText "apiproxies.kanali.io"))
    fatalExits := false }

/-- The trace of `Run` in the healthy environment up to the first addition to the run
group. -/
def healthyPrefix : List Event :=
  [Event.GetRestConfig, Event.crdNewForConfig, Event.kanaliNewForConfig, Event.k8sNewForConfig,
    Event.NewSharedInformerFactory "kanali", Event.NewSharedInformerFactory "k8s",
    Event.SetGlobalInterface,
    Event.EnsureCRDs [CRD.ApiProxyCRD, CRD.ApiKeyCRD, CRD.ApiKeyBindingCRD, CRD.MockTargetCRD],
    Event.Info "all customresourcedefinitions successfully created",
    Event.LoadDecryptionKey, Event.tracerNew,
    Event.Prepare "gateway", Event.Prepare "profiling", Event.Prepare "prometheus"]

/-- The trace of `Run` in the healthy environment after the first addition to the run
group. -/
def healthySuffix : List Event :=
  [Event.Add Actor.ApiKeyController, Event.Add Actor.ApiKeyBindingController,
    Event.Add Actor.MockTargetController, Event.Add Actor.ServicesInformer,
    Event.Add Actor.SecretsInformer, Event.Add Actor.Tracer, Event.Add Actor.MetricsServer,
    Event.Add Actor.GatewayServer, Event.Add Actor.MonitorContext, Event.groupRun]

/-- An event that starts an actor: an addition to the run group, or the run of the group. -/
def Event.starts : Event → Prop
  | .Add _ => True
  | .groupRun => True
  | _ => False

/-- A client whose every call fails with the given error. -/
def failingClient (err : GoError) : CRDClient := fun _ _ => Except.error err

/-- An environment in which only the creation of the tracer fails, with profiling on. -/
def tracerFailureEnv : RunEnv :=
  { healthyEnv with
    tracerNew := some (GoError.client "no tracer configuration")
    FlagProfilingEnabled := true }

/-! ## Lemmas on the polling loop -/

theorem backoffLoop_succ (i : CRDClient) (crd : CustomResourceDefinition)
    (idx left : Nat) (t : PollTrace) :
    ∃ t1 : PollTrace, t1.gets = t.gets ++ [crd.Name] ∧
      backoffLoop (condition i crd) idx (left + 1) t =
        if stops i crd t.gets.length then ((pollOutcome i crd t.gets.length).2, t1)
        else backoffLoop (condition i crd) (idx + 1) left t1 := by
  by_cases h : idx = 0
  · exact ⟨{ t with gets := t.gets ++ [crd.Name] }, rfl, by simp [backoffLoop, condition, stops, h]⟩
  · exact ⟨{ gets := t.gets ++ [crd.Name], sleeps := t.sleeps + 1 }, rfl,
      by simp [backoffLoop, condition, stops, h]⟩

theorem backoffLoop_polls_le (i : CRDClient) (crd : CustomResourceDefinition) :
    ∀ (left idx : Nat) (t : PollTrace),
      (backoffLoop (condition i crd) idx left t).2.gets.length ≤ t.gets.length + left
  | 0, _, _ => by simp [backoffLoop]
  | left + 1, idx, t => by
    obtain ⟨t1, h1, h2⟩ := backoffLoop_succ i crd idx left t
    rw [h2]
    split
    · simp [h1]
    · have := backoffLoop_polls_le i crd left (idx + 1) t1
      simp [h1] at this
      omega

theorem backoffLoop_stops (i : CRDClient) (crd : CustomResourceDefinition) :
    ∀ (left idx : Nat) (t : PollTrace) (k : Nat), t.gets.length ≤ k →
      k < (backoffLoop (condition i crd) idx left t).2.gets.length → stops i crd k →
      (backoffLoop (condition i crd) idx left t).2.gets.length = k + 1 ∧
        (backoffLoop (condition i crd) idx left t).1 = (pollOutcome i crd k).2
  | 0, _, t, k => by
    intro h1 h2 _
    simp [backoffLoop] at h2
    omega
  | left + 1, idx, t, k => by
    obtain ⟨t1, h1, h2⟩ := backoffLoop_succ i crd idx left t
    rw [h2]
    intro hk hlt hs
    by_cases hst : stops i crd t.gets.length
    · rw [if_pos hst] at hlt ⊢
      simp [h1] at hlt
      have : k = t.gets.length := by omega
      subst this
      simp [h1]
    · rw [if_neg hst] at hlt ⊢
      have hne : k ≠ t.gets.length := fun h => hst (h ▸ hs)
      exact backoffLoop_stops i crd left (idx + 1) t1 k (by simp [h1]; omega) hlt hs

theorem backoffLoop_exhaust (i : CRDClient) (crd : CustomResourceDefinition) :
    ∀ (left idx : Nat) (t : PollTrace),
      (∀ j, j < left → ¬ stops i crd (t.gets.length + j)) →
      (backoffLoop (condition i crd) idx left t).1 = some GoError.errWaitTimeout ∧
        (backoffLoop (condition i crd) idx left t).2.gets.length = t.gets.length + left
  | 0, _, _ => by simp [backoffLoop]
  | left + 1, idx, t => by
    obtain ⟨t1, h1, h2⟩ := backoffLoop_succ i crd idx left t
    rw [h2]
    intro h
    have h0 : ¬ stops i crd t.gets.length := by simpa using h 0 (by omega)
    rw [if_neg h0]
    have := backoffLoop_exhaust i crd left (idx + 1) t1 (fun j hj => by
      have := h (j + 1) (by omega)
      simpa [h1, Nat.add_assoc, Nat.add_comm 1 j] using this)
    simp [h1] at this
    refine ⟨this.1, ?_⟩
    omega

theorem backoffLoop_polls_ge (i : CRDClient) (crd : CustomResourceDefinition) :
    ∀ (left idx : Nat) (t : PollTrace),
      t.gets.length ≤ (backoffLoop (condition i crd) idx left t).2.gets.length
  | 0, _, _ => by simp [backoffLoop]
  | left + 1, idx, t => by
    obtain ⟨t1, h1, h2⟩ := backoffLoop_succ i crd idx left t
    rw [h2]
    split
    · simp [h1]
    · have := backoffLoop_polls_ge i crd left (idx + 1) t1
      simp [h1] at this
      omega

theorem backoffLoop_first (i : CRDClient) (crd : CustomResourceDefinition)
    (idx left : Nat) (t : PollTrace) :
    t.gets.length < (backoffLoop (condition i crd) idx (left + 1) t).2.gets.length := by
  obtain ⟨t1, h1, h2⟩ := backoffLoop_succ i crd idx left t
  rw [h2]
  split
  · simp [h1]
  · have := backoffLoop_polls_ge i crd left (idx + 1) t1
    simp [h1] at this
    omega


/-! ## Lemmas on the scan of the conditions -/

theorem established_ne_namesAccepted : Established ≠ NamesAccepted := by decide

theorem scanConditions_established (name : String)
    (c : CustomResourceDefinitionCondition) (post : List CustomResourceDefinitionCondition)
    (hc : IsEstablishedTrue c) :
    ∀ pre : List CustomResourceDefinitionCondition,
      (∀ d ∈ pre, ¬ IsNamesAcceptedFalse d) →
      scanConditions name (pre ++ c :: post) = (true, none)
  | [], _ => by simp [scanConditions, hc.1, hc.2]
  | d :: pre, h => by
    have hd : ¬ IsNamesAcceptedFalse d := h d (List.mem_cons_self _ _)
    have ih := scanConditions_established name c post hc pre
      (fun e he => h e (List.mem_cons_of_mem _ he))
    simp only [List.cons_append, scanConditions, ih]
    unfold IsNamesAcceptedFalse at hd
    split_ifs <;> simp_all

theorem scanConditions_conflict (name : String)
    (c : CustomResourceDefinitionCondition) (post : List CustomResourceDefinitionCondition)
    (hc : IsNamesAcceptedFalse c) :
    ∀ pre : List CustomResourceDefinitionCondition,
      (∀ d ∈ pre, ¬ IsEstablishedTrue d) →
      ∃ d ∈ pre ++ c :: post, IsNamesAcceptedFalse d ∧
        scanConditions name (pre ++ c :: post) =
          (false, some (GoError.errorf (namingConflictText d.Reason name)))
  | [], _ => by
    refine ⟨c, by simp, hc, ?_⟩
    simp [scanConditions, hc.1, hc.2, established_ne_namesAccepted.symm]
  | e :: pre, h => by
    have he : ¬ IsEstablishedTrue e := h e (List.mem_cons_self _ _)
    obtain ⟨d, hd, hdc, ih⟩ := scanConditions_conflict name c post hc pre
      (fun x hx => h x (List.mem_cons_of_mem _ hx))
    unfold IsEstablishedTrue at he
    by_cases h1 : e.type = Established
    · have h2 : e.Status ≠ ConditionTrue := fun h2 => he ⟨h1, h2⟩
      exact ⟨d, List.mem_cons_of_mem _ hd, hdc, by
        simp [List.cons_append, scanConditions, h1, h2, ih]⟩
    · by_cases h3 : e.type = NamesAccepted ∧ e.Status = ConditionFalse
      · exact ⟨e, by simp, h3, by
        simp [List.cons_append, scanConditions, h3.1, h3.2, established_ne_namesAccepted.symm]⟩
      · refine ⟨d, List.mem_cons_of_mem _ hd, hdc, ?_⟩
        simp only [List.cons_append, scanConditions, h1, if_false, ih]
        split_ifs <;> simp_all

theorem scanConditions_pending (name : String) :
    ∀ conds : List CustomResourceDefinitionCondition,
      (∀ c ∈ conds, ¬ IsEstablishedTrue c ∧ ¬ IsNamesAcceptedFalse c) →
      scanConditions name conds = (false, none)
  | [], _ => by simp [scanConditions]
  | c :: conds, h => by
    have hc := h c (List.mem_cons_self _ _)
    have ih := scanConditions_pending name conds (fun x hx => h x (List.mem_cons_of_mem _ hx))
    unfold IsEstablishedTrue IsNamesAcceptedFalse at hc
    simp only [scanConditions, ih]
    split_ifs <;> simp_all

/-! ## Lemmas on `WaitForEstablished` -/

theorem WaitForEstablished_trace (N : Int) (i : CRDClient) (crd : CustomResourceDefinition)
    (stopCh : StopCh) :
    (WaitForEstablished N i crd stopCh).2 =
      (backoffLoop (condition i crd) 0 N.toNat PollTrace.init).2 := by
  unfold WaitForEstablished ExponentialBackoff
  simp only
  split <;> rfl

theorem WaitForEstablished_error (N : Int) (i : CRDClient) (crd : CustomResourceDefinition)
    (stopCh : StopCh) :
    (WaitForEstablished N i crd stopCh).1 =
      if (backoffLoop (condition i crd) 0 N.toNat PollTrace.init).1 =
          some GoError.errWaitTimeout
      then some (GoError.errorf (timeoutText crd.Name))
      else (backoffLoop (condition i crd) 0 N.toNat PollTrace.init).1 := by
  unfold WaitForEstablished ExponentialBackoff
  simp only
  split <;> rfl

/-! ## The schema readiness gate: properties -/

/-- C1 (the code reports an established resource as one that "will never become
established"): with a budget of 1 and a fetched status `[NamesAccepted=False,
Established=True]`, the poll is made and the status includes `Established=True`, yet
`WaitForEstablished` returns the naming conflict error and not `nil`, because the scan
returns at `NamesAccepted=False`, which stands earlier in the list.  The comment at utils.go
63 to 65 asks for the conflict search only when the resource is not established. -/
theorem WaitForEstablished_conflict_hides_established :
    (1 : Int) ≥ 1 ∧
    constClient (foos [notAcceptedCondition, establishedCondition]) 0 (foos []).Name =
      Except.ok (foos [notAcceptedCondition, establishedCondition]) ∧
    (∃ c ∈ (foos [notAcceptedCondition, establishedCondition]).Conditions,
      c.type = Established ∧ c.Status = ConditionTrue) ∧
    0 < (WaitForEstablished 1 (constClient (foos [notAcceptedCondition, establishedCondition]))
      (foos []) (fun _ => false)).2.polls ∧
    (WaitForEstablished 1 (constClient (foos [notAcceptedCondition, establishedCondition]))
      (foos []) (fun _ => false)).1 =
      some (GoError.errorf
        "due to the naming conflict TestConflict, the CustomResourceDefinition foos.bar.io will never become established") ∧
    (WaitForEstablished 1 (constClient (foos [notAcceptedCondition, establishedCondition]))
      (foos []) (fun _ => false)).1 ≠ none := by
  refine ⟨by decide, rfl, ⟨establishedCondition, by simp [foos], rfl, rfl⟩, by decide,
    by decide, by decide⟩

/-- The case in which the code does what C1 asks: if poll `k` of `WaitForEstablished` is
made and fetches a status whose conditions include `Established` with status `True`, with no
`NamesAccepted` condition of status `False` before it in the list, then `WaitForEstablished`
returns `nil` and poll `k` is the last one: exactly `k + 1` polls are made. -/
theorem WaitForEstablished_established (N : Int) (i : CRDClient)
    (crd : CustomResourceDefinition) (stopCh : StopCh) (k : Nat)
    (fetched : CustomResourceDefinition)
    (pre post : List CustomResourceDefinitionCondition) (c : CustomResourceDefinitionCondition)
    (hpoll : k < (WaitForEstablished N i crd stopCh).2.polls)
    (hfetch : i k crd.Name = Except.ok fetched)
    (hconds : fetched.Conditions = pre ++ c :: post)
    (hc : c.type = Established ∧ c.Status = ConditionTrue)
    (hpre : ∀ d ∈ pre, ¬ (d.type = NamesAccepted ∧ d.Status = ConditionFalse)) :
    (WaitForEstablished N i crd stopCh).1 = none ∧
      (WaitForEstablished N i crd stopCh).2.polls = k + 1 := by
  have hout : pollOutcome i crd k = (true, none) := by
    simp only [pollOutcome, hfetch, hconds]
    exact scanConditions_established _ c post hc pre hpre
  have hstop : stops i crd k := Or.inr (by rw [hout])
  rw [PollTrace.polls, WaitForEstablished_trace] at hpoll
  have h := backoffLoop_stops i crd N.toNat 0 PollTrace.init k (Nat.zero_le _) hpoll hstop
  rw [PollTrace.polls, WaitForEstablished_trace, WaitForEstablished_error, h.2, hout]
  exact ⟨by simp, h.1⟩

/-- The test case "established" with the
default budget of 5. -/
theorem WaitForEstablished_established_witness :
    (WaitForEstablished 5 (constClient (foos [establishedCondition])) (foos [establishedCondition])
        (fun _ => false)).1 = none ∧
      (WaitForEstablished 5 (constClient (foos [establishedCondition]))
        (foos [establishedCondition]) (fun _ => false)).2.polls = 0 + 1 :=
  WaitForEstablished_established 5 (constClient (foos [establishedCondition]))
    (foos [establishedCondition]) (fun _ => false) 0 (foos [establishedCondition])
    [] [] establishedCondition (by decide) rfl rfl ⟨rfl, rfl⟩ (by simp)

/-- C2, as stated, fails: the first poll fetches a status that includes
`NamesAccepted=False`, yet the call returns `nil`, because `Established=True` stands earlier
in the list. -/
theorem C2_counterexample :
    (5 : Int) ≥ 1 ∧
    constClient (foos [establishedCondition, notAcceptedCondition]) 0 (foos []).Name =
      Except.ok (foos [establishedCondition, notAcceptedCondition]) ∧
    (∃ c ∈ (foos [establishedCondition, notAcceptedCondition]).Conditions,
      c.type = NamesAccepted ∧ c.Status = ConditionFalse) ∧
    (WaitForEstablished 5 (constClient (foos [establishedCondition, notAcceptedCondition]))
      (foos []) (fun _ => false)).1 = none := by
  refine ⟨by decide, rfl, ⟨notAcceptedCondition, by simp [foos], rfl, rfl⟩, by decide⟩

/-- C2, amended: for every budget `N ≥ 1`, if the first poll of `WaitForEstablished`
fetches a status whose conditions include `NamesAccepted` with status `False`, with no
`Established` condition of status `True` before it in the list, then `WaitForEstablished`
returns the naming conflict error (built from the reason of a `NamesAccepted=False`
condition of that status and the name of the fetched resource) after exactly one poll. -/
theorem WaitForEstablished_namingConflict (N : Int) (hN : 1 ≤ N) (i : CRDClient)
    (crd : CustomResourceDefinition) (stopCh : StopCh) (fetched : CustomResourceDefinition)
    (pre post : List CustomResourceDefinitionCondition) (c : CustomResourceDefinitionCondition)
    (hfetch : i 0 crd.Name = Except.ok fetched)
    (hconds : fetched.Conditions = pre ++ c :: post)
    (hc : c.type = NamesAccepted ∧ c.Status = ConditionFalse)
    (hpre : ∀ d ∈ pre, ¬ (d.type = Established ∧ d.Status = ConditionTrue)) :
    (∃ d ∈ fetched.Conditions, (d.type = NamesAccepted ∧ d.Status = ConditionFalse) ∧
      (WaitForEstablished N i crd stopCh).1 = some (GoError.errorf
        ("due to the naming conflict " ++ d.Reason ++ ", the CustomResourceDefinition " ++
          fetched.Name ++ " will never become established"))) ∧
      (WaitForEstablished N i crd stopCh).2.polls = 1 := by
  obtain ⟨d, hd, hdc, hscan⟩ := scanConditions_conflict fetched.Name c post hc pre hpre
  have hout : pollOutcome i crd 0 =
      (false, some (GoError.errorf (namingConflictText d.Reason fetched.Name))) := by
    simp only [pollOutcome, hfetch, hconds]
    exact hscan
  have hstop : stops i crd 0 := Or.inl (by rw [hout]; simp)
  obtain ⟨n, hn⟩ : ∃ n, N.toNat = n + 1 := ⟨N.toNat - 1, by omega⟩
  have hfirst := backoffLoop_first i crd 0 n PollTrace.init
  rw [← hn] at hfirst
  have h := backoffLoop_stops i crd N.toNat 0 PollTrace.init 0 (Nat.zero_le _) hfirst hstop
  rw [PollTrace.polls, WaitForEstablished_trace, WaitForEstablished_error, h.2, hout]
  refine ⟨⟨d, hconds ▸ hd, hdc, ?_⟩, h.1⟩
  simp [namingConflictText]

/-- Witness for C2: the test case "will never be
established" with the default budget of 5. -/
theorem WaitForEstablished_namingConflict_witness :
    (∃ d ∈ (foos [notAcceptedCondition, notEstablishedCondition]).Conditions,
      (d.type = NamesAccepted ∧ d.Status = ConditionFalse) ∧
      (WaitForEstablished 5 (constClient (foos [notAcceptedCondition, notEstablishedCondition]))
        (foos [notAcceptedCondition, notEstablishedCondition]) (fun _ => false)).1 =
        some (GoError.errorf
          ("due to the naming conflict " ++ d.Reason ++ ", the CustomResourceDefinition " ++
            (foos [notAcceptedCondition, notEstablishedCondition]).Name ++
            " will never become established"))) ∧
      (WaitForEstablished 5 (constClient (foos [notAcceptedCondition, notEstablishedCondition]))
        (foos [notAcceptedCondition, notEstablishedCondition]) (fun _ => false)).2.polls = 1 :=
  WaitForEstablished_namingConflict 5 (by decide)
    (constClient (foos [notAcceptedCondition, notEstablishedCondition]))
    (foos [notAcceptedCondition, notEstablishedCondition]) (fun _ => false)
    (foos [notAcceptedCondition, notEstablishedCondition])
    [] [notEstablishedCondition] notAcceptedCondition rfl rfl ⟨rfl, rfl⟩ (by simp)

/-- C3: for every budget `N ≥ 0`, if each of the first `N` fetches succeeds and no fetched
status holds a terminal condition (neither `Established=True` nor `NamesAccepted=False`),
`WaitForEstablished` makes exactly `N` polls and returns the timeout error whose text names
the resource passed to `WaitForEstablished`. -/
theorem WaitForEstablished_timeout (N : Int) (hN : 0 ≤ N) (i : CRDClient)
    (crd : CustomResourceDefinition) (stopCh : StopCh)
    (hpending : ∀ k : Nat, (k : Int) < N → ∃ fetched, i k crd.Name = Except.ok fetched ∧
      ∀ c ∈ fetched.Conditions,
        ¬ (c.type = Established ∧ c.Status = ConditionTrue) ∧
        ¬ (c.type = NamesAccepted ∧ c.Status = ConditionFalse)) :
    (WaitForEstablished N i crd stopCh).1 = some (GoError.errorf
        ("the CustomResourceDefinition " ++ crd.Name ++
          " was not established within a reasonable amount of time")) ∧
      ((WaitForEstablished N i crd stopCh).2.polls : Int) = N := by
  have hno : ∀ j, j < N.toNat → ¬ stops i crd (PollTrace.init.gets.length + j) := by
    intro j hj
    obtain ⟨fetched, hf, hc⟩ := hpending j (by omega)
    have hout : pollOutcome i crd j = (false, none) := by
      simp only [pollOutcome, hf]
      exact scanConditions_pending _ _ hc
    simp [PollTrace.init, stops, hout]
  have h := backoffLoop_exhaust i crd N.toNat 0 PollTrace.init hno
  rw [PollTrace.polls, WaitForEstablished_trace, WaitForEstablished_error, h.1, h.2]
  refine ⟨by simp [timeoutText], ?_⟩
  simp [PollTrace.init]
  omega

/-- Witness for C3: the test case "timeout" with a budget of 3. -/
theorem WaitForEstablished_timeout_witness :
    (WaitForEstablished 3 (constClient (foos [])) (foos []) (fun _ => false)).1 =
        some (GoError.errorf
          ("the CustomResourceDefinition " ++ (foos []).Name ++
            " was not established within a reasonable amount of time")) ∧
      ((WaitForEstablished 3 (constClient (foos [])) (foos []) (fun _ => false)).2.polls : Int)
        = 3 :=
  WaitForEstablished_timeout 3 (by decide) (constClient (foos [])) (foos []) (fun _ => false)
    (fun _ _ => ⟨foos [], rfl, by simp [foos]⟩)

/-- C4 (the code ignores the stop signal): with the signal raised from the very start, a
budget of 5 and a resource that never reaches a terminal state, `WaitForEstablished` still
makes all 5 polls, sleeping 4 times, and returns the timeout error; and for every input its
result does not depend on the stop signal at all. -/
theorem WaitForEstablished_ignores_stopCh :
    WaitForEstablished 5 (constClient (foos [])) (foos []) (fun _ => true) =
      (some (GoError.errorf
        "the CustomResourceDefinition foos.bar.io was not established within a reasonable amount of time"),
       ⟨["foos.bar.io", "foos.bar.io", "foos.bar.io", "foos.bar.io", "foos.bar.io"], 4⟩) ∧
    ∀ (N : Int) (i : CRDClient) (crd : CustomResourceDefinition) (s1 s2 : StopCh),
      WaitForEstablished N i crd s1 = WaitForEstablished N i crd s2 :=
  ⟨by decide, fun _ _ _ _ _ => rfl⟩

/-- C10: for every budget `N` and every behaviour of the client, `WaitForEstablished` makes
at most `N` polls (none when `N` is negative), so at most 5 with the initial value of
`crdEstablishedNumRetries`; with `N = 0` it makes no poll, does not sleep, and returns the
timeout error. -/
theorem WaitForEstablished_polls_le (N : Int) (i : CRDClient)
    (crd : CustomResourceDefinition) (stopCh : StopCh) :
    (WaitForEstablished N i crd stopCh).2.polls ≤ N.toNat ∧
    (WaitForEstablished crdEstablishedNumRetries i crd stopCh).2.polls ≤ 5 ∧
    WaitForEstablished 0 i crd stopCh =
      (some (GoError.errorf ("the CustomResourceDefinition " ++ crd.Name ++
        " was not established within a reasonable amount of time")), ⟨[], 0⟩) := by
  have hle : ∀ M : Int, (WaitForEstablished M i crd stopCh).2.polls ≤ M.toNat := by
    intro M
    rw [PollTrace.polls, WaitForEstablished_trace]
    simpa [PollTrace.init] using backoffLoop_polls_le i crd M.toNat 0 PollTrace.init
  refine ⟨hle N, ?_, ?_⟩
  · simpa [crdEstablishedNumRetries] using hle crdEstablishedNumRetries
  · simp [WaitForEstablished, ExponentialBackoff, backoffLoop, timeoutText, PollTrace.init]

/-! ## The ApiKeyBinding controller: properties -/

theorem deliverAll_append {σ : Type} (st : ApiKeyBindingStoreInterface σ) :
    ∀ (ns ms : List Notification) (w : ControllerState σ),
      deliverAll st (ns ++ ms) w = deliverAll st ms (deliverAll st ns w)
  | [], _, _ => rfl
  | n :: ns, ms, w => by
    simp only [List.cons_append, deliverAll]
    exact deliverAll_append st ns ms (deliver st n w)

theorem deliver_specOps {σ : Type} (st : ApiKeyBindingStoreInterface σ) (n : Notification)
    (w : ControllerState σ) :
    (deliver st n w).ops = w.ops ++ specOps n ∧
      (deliver st n w).store = (specOps n).foldl (applyOp st) w.store := by
  rcases n with obj | ⟨old, new⟩ | obj
  · cases obj <;> simp [deliver, OnAdd, Obj.assertApiKeyBinding, specOps, applyOp]
  · cases old <;> cases new <;>
      simp [deliver, OnUpdate, Obj.assertApiKeyBinding, specOps, applyOp]
  · cases obj <;> simp [deliver, OnDelete, Obj.assertApiKeyBinding, specOps, applyOp]

/-- C5: a notification whose object is not an ApiKeyBinding (for an update: whose old or
new object is not one) makes the callback return with the store as it was and the list of
store calls as it was; the only effect is the error line in the log. -/
theorem deliver_wrongTyped {σ : Type} (st : ApiKeyBindingStoreInterface σ)
    (n : Notification) (w : ControllerState σ) (h : n.wrongTyped) :
    (deliver st n w).store = w.store ∧ (deliver st n w).ops = w.ops ∧
      (deliver st n w).log =
        w.log ++ [LogEntry.Error "received malformed ApiKeyBinding from k8s apiserver"] := by
  rcases n with obj | ⟨old, new⟩ | obj
  · cases obj <;> simp_all [deliver, OnAdd, Obj.assertApiKeyBinding, Notification.wrongTyped]
  · cases old <;> cases new <;>
      simp_all [deliver, OnUpdate, Obj.assertApiKeyBinding, Notification.wrongTyped]
  · cases obj <;> simp_all [deliver, OnDelete, Obj.assertApiKeyBinding, Notification.wrongTyped]

/-- Witness for C5: an update whose old object is an ApiKey, on a store
that holds one binding. -/
theorem deliver_wrongTyped_witness :
    (deliver mapStore
        (Notification.update (Obj.other "*v2.ApiKey") (Obj.apiKeyBinding (binding "ns" "b")))
        ⟨[(("ns", "a"), binding "ns" "a")], [], []⟩).store =
      [(("ns", "a"), binding "ns" "a")] ∧
    (deliver mapStore
        (Notification.update (Obj.other "*v2.ApiKey") (Obj.apiKeyBinding (binding "ns" "b")))
        ⟨[(("ns", "a"), binding "ns" "a")], [], []⟩).ops = [] ∧
    (deliver mapStore
        (Notification.update (Obj.other "*v2.ApiKey") (Obj.apiKeyBinding (binding "ns" "b")))
        ⟨[(("ns", "a"), binding "ns" "a")], [], []⟩).log =
      [] ++ [LogEntry.Error "received malformed ApiKeyBinding from k8s apiserver"] :=
  deliver_wrongTyped mapStore
    (Notification.update (Obj.other "*v2.ApiKey") (Obj.apiKeyBinding (binding "ns" "b")))
    ⟨[(("ns", "a"), binding "ns" "a")], [], []⟩ (Or.inl rfl)

/-- C6: for every finite sequence of notifications, the store calls the controller makes
are, in delivered order, the operations the specification assigns to the notifications (one
`Set`, `Update` or `Delete` per well-typed notification, nothing for a wrong-typed one), and
the final state of the store is the result of applying these operations in that order. -/
theorem deliverAll_refines_spec {σ : Type} (st : ApiKeyBindingStoreInterface σ)
    (ns : List Notification) (w : ControllerState σ) :
    (deliverAll st ns w).ops = w.ops ++ (ns.map specOps).flatten ∧
      (deliverAll st ns w).store = ((ns.map specOps).flatten).foldl (applyOp st) w.store := by
  induction ns generalizing w with
  | nil => simp [deliverAll]
  | cons n ns ih =>
    have h1 := deliver_specOps st n w
    have h2 := ih (deliver st n w)
    simp only [deliverAll, List.map_cons, List.flatten_cons, List.foldl_append]
    rw [h2.1, h2.2, h1.1, h1.2, List.append_assoc]
    exact ⟨rfl, rfl⟩

theorem OnDelete_of_failed_Delete {σ : Type} (st : ApiKeyBindingStoreInterface σ)
    (b : ApiKeyBinding) (w : ControllerState σ) (herr : (st.Delete w.store b).1 ≠ none) :
    (OnDelete st (Obj.apiKeyBinding b) w).ops = w.ops ++ [StoreOp.Delete b] ∧
      (OnDelete st (Obj.apiKeyBinding b) w).store = (st.Delete w.store b).2 ∧
      (OnDelete st (Obj.apiKeyBinding b) w).log = w.log := by
  simp [OnDelete, Obj.assertApiKeyBinding, herr]

theorem mapStore_Delete_absent (m : List ((String × String) × ApiKeyBinding))
    (b : ApiKeyBinding) (habsent : ∀ e ∈ m, e.1 ≠ bindingKey b) :
    mapStore.Delete m b = (some (GoError.client "not found"), m) := by
  have hany : (m.any fun e => decide (e.1 = bindingKey b)) = false := by
    rw [List.any_eq_false]
    intro e he
    simpa using habsent e he
  simp only [mapStore, hany]
  rfl

/-- C7: for every state of the store and every ApiKeyBinding whose key is absent from it,
the store's `Delete` reports an error and `OnDelete` returns with the store exactly as it
was, so that every existing entry is untouched, with that `Delete` as the only store call
made and nothing logged: no "deleted ApiKeyBinding" trace and no escalation of the error.
For any other store as well, a `Delete` that reports an error is the only store call made,
the state of the store is what that call left, and nothing is logged. -/
theorem OnDelete_absent_key (m : List ((String × String) × ApiKeyBinding))
    (ops : List StoreOp) (log : List LogEntry) (b : ApiKeyBinding)
    (habsent : ∀ e ∈ m, e.1 ≠ bindingKey b) :
    (mapStore.Delete m b).1 ≠ none ∧
    (OnDelete mapStore (Obj.apiKeyBinding b) ⟨m, ops, log⟩).store = m ∧
    (∀ e ∈ m, e ∈ (OnDelete mapStore (Obj.apiKeyBinding b) ⟨m, ops, log⟩).store) ∧
    (OnDelete mapStore (Obj.apiKeyBinding b) ⟨m, ops, log⟩).ops =
      ops ++ [StoreOp.Delete b] ∧
    (OnDelete mapStore (Obj.apiKeyBinding b) ⟨m, ops, log⟩).log = log ∧
    (∀ (σ : Type) (st : ApiKeyBindingStoreInterface σ) (w : ControllerState σ),
      (st.Delete w.store b).1 ≠ none →
      (OnDelete st (Obj.apiKeyBinding b) w).ops = w.ops ++ [StoreOp.Delete b] ∧
      (OnDelete st (Obj.apiKeyBinding b) w).store = (st.Delete w.store b).2 ∧
      (OnDelete st (Obj.apiKeyBinding b) w).log = w.log) := by
  have hdel := mapStore_Delete_absent m b habsent
  have herr : (mapStore.Delete m b).1 ≠ none := by rw [hdel]; simp
  have h := OnDelete_of_failed_Delete mapStore b ⟨m, ops, log⟩ herr
  have hstore : (OnDelete mapStore (Obj.apiKeyBinding b) ⟨m, ops, log⟩).store = m := by
    rw [h.2.1, hdel]
  refine ⟨herr, hstore, ?_, h.1, h.2.2, fun σ st w hw => OnDelete_of_failed_Delete st b w hw⟩
  intro e he
  rw [hstore]
  exact he

/-- Witness for C7: on the store holding the bindings `ns/a` and `other/zzz`, after one
earlier store call and one earlier log line, the delete of the unknown `ns/zzz` fails and
leaves both entries as they are. -/
theorem OnDelete_absent_key_witness :
    (mapStore.Delete
      [(("ns", "a"), binding "ns" "a"), (("other", "zzz"), binding "other" "zzz")]
      (binding "ns" "zzz")).1 ≠ none ∧
    (OnDelete mapStore (Obj.apiKeyBinding (binding "ns" "zzz"))
      ⟨[(("ns", "a"), binding "ns" "a"), (("other", "zzz"), binding "other" "zzz")],
        [StoreOp.Set (binding "ns" "a")],
        [LogEntry.Debug "added ApiKeyBinding" "a" "ns"]⟩).store =
      [(("ns", "a"), binding "ns" "a"), (("other", "zzz"), binding "other" "zzz")] ∧
    (OnDelete mapStore (Obj.apiKeyBinding (binding "ns" "zzz"))
      ⟨[(("ns", "a"), binding "ns" "a"), (("other", "zzz"), binding "other" "zzz")],
        [StoreOp.Set (binding "ns" "a")],
        [LogEntry.Debug "added ApiKeyBinding" "a" "ns"]⟩).log =
      [LogEntry.Debug "added ApiKeyBinding" "a" "ns"] :=
  ⟨(OnDelete_absent_key
      [(("ns", "a"), binding "ns" "a"), (("other", "zzz"), binding "other" "zzz")]
      [StoreOp.Set (binding "ns" "a")] [LogEntry.Debug "added ApiKeyBinding" "a" "ns"]
      (binding "ns" "zzz") (by decide)).1,
   (OnDelete_absent_key
      [(("ns", "a"), binding "ns" "a"), (("other", "zzz"), binding "other" "zzz")]
      [StoreOp.Set (binding "ns" "a")] [LogEntry.Debug "added ApiKeyBinding" "a" "ns"]
      (binding "ns" "zzz") (by decide)).2.1,
   (OnDelete_absent_key
      [(("ns", "a"), binding "ns" "a"), (("other", "zzz"), binding "other" "zzz")]
      [StoreOp.Set (binding "ns" "a")] [LogEntry.Debug "added ApiKeyBinding" "a" "ns"]
      (binding "ns" "zzz") (by decide)).2.2.2.2.1⟩

/-! ## Start-up: properties -/

theorem createClientsets_no_start (env : RunEnv) :
    ∀ e ∈ (createClientsets env).2, ¬ e.starts := by
  unfold createClientsets
  intro e he
  split at he
  · simp at he; subst he; simp [Event.starts]
  · split at he
    · simp at he; rcases he with rfl | rfl <;> simp [Event.starts]
    · split at he
      · simp at he; rcases he with rfl | rfl | rfl <;> simp [Event.starts]
      · split at he <;>
        · simp at he; rcases he with rfl | rfl | rfl | rfl <;> simp [Event.starts]

theorem createClientsets_no_ensure (env : RunEnv) (crds : List CRD) :
    Event.EnsureCRDs crds ∉ (createClientsets env).2 := by
  unfold createClientsets
  split
  · simp
  · split
    · simp
    · split
      · simp
      · split <;> simp

theorem no_start_append (l1 l2 : List Event) (h1 : ∀ e ∈ l1, ¬ e.starts)
    (h2 : ∀ e ∈ l2, ¬ e.starts) : ∀ e ∈ l1 ++ l2, ¬ e.starts := by
  intro e he
  rcases List.mem_append.mp he with h | h
  · exact h1 e h
  · exact h2 e h

theorem no_start_split (l pre post : List Event) (e : Event)
    (h : ∀ x ∈ l, ¬ x.starts) (hsplit : l = pre ++ e :: post) : ¬ e.starts :=
  h e (by rw [hsplit]; simp)

theorem mem_before {α : Type} (x e : α) (B post : List α) :
    ∀ (A pre : List α), A ++ x :: B = pre ++ e :: post → e ∉ A → e ≠ x → x ∈ pre
  | [], [], h, _, hne => by
    simp at h
    exact absurd h.1.symm hne
  | [], p :: pre, h, _, _ => by
    simp at h
    simp [h.1]
  | a :: A, [], h, hA, _ => by
    simp at h
    exact absurd (by simp [h.1]) hA
  | a :: A, p :: pre, h, hA, hne => by
    simp at h
    have := mem_before x e B post A pre h.2 (fun hm => hA (List.mem_cons_of_mem _ hm)) hne
    exact List.mem_cons_of_mem _ this

/-- C8, as stated, fails: the kubeconfig cannot be read, so creating the clientsets fails,
and with a zap logger `Run` does not return that error: `logger.Fatal` ends the process
with status 1 before `return err` is reached. -/
theorem C8_counterexample :
    (createClientsets brokenConfigEnv).1 = some (GoError.client "invalid configuration") ∧
    (Run brokenConfigEnv).1 = Outcome.exited 1 ∧
    (Run brokenConfigEnv).1 ≠
      Outcome.returned (some (GoError.client "invalid configuration")) := by
  decide

/-- C8, amended: if one of the three start-up steps fails (creating the clientsets, or,
these created, `EnsureCRDs`, or, the schemas ensured, loading the decryption key), `Run` logs
that step's error through `logger.Fatal` and nothing is started: no actor is added to the run
group and the group is not run.  `Run` returns that step's error when `logger.Fatal` hands
control back; with a logger whose `Fatal` terminates the process, the process exits with
status 1 at that call. -/
theorem Run_startup_failure (env : RunEnv) (err : GoError)
    (h : (createClientsets env).1 = some err ∨
      ((createClientsets env).1 = none ∧ env.EnsureCRDs
        [CRD.ApiProxyCRD, CRD.ApiKeyCRD, CRD.ApiKeyBindingCRD, CRD.MockTargetCRD] = some err) ∨
      ((createClientsets env).1 = none ∧ env.EnsureCRDs
        [CRD.ApiProxyCRD, CRD.ApiKeyCRD, CRD.ApiKeyBindingCRD, CRD.MockTargetCRD] = none ∧
        env.LoadDecryptionKey = some err)) :
    (∀ e ∈ (Run env).2, ¬ e.starts) ∧
      (∀ a : Actor, Event.Add a ∉ (Run env).2) ∧ Event.groupRun ∉ (Run env).2 ∧
      Event.Fatal err.Error ∈ (Run env).2 ∧
      (Run env).1 = if env.fatalExits = true then Outcome.exited 1
        else Outcome.returned (some err) := by
  have hcc := createClientsets_no_start env
  have key : (∀ e ∈ (Run env).2, ¬ e.starts) ∧ Event.Fatal err.Error ∈ (Run env).2 ∧
      (Run env).1 = if env.fatalExits = true then Outcome.exited 1
        else Outcome.returned (some err) := by
    rcases hres : createClientsets env with ⟨r, tr⟩
    rw [hres] at h hcc
    simp only at h hcc
    rcases h with h | ⟨h1, h2⟩ | ⟨h1, h2, h3⟩
    · subst h
      simp only [Run, hres, fatalThenReturn]
      split <;> refine ⟨?_, by simp, by simp [*]⟩ <;> repeat' apply no_start_append
      all_goals first | exact hcc | simp [Event.starts]
    · subst h1
      simp only [Run, hres, kanaliCRDs, h2, fatalThenReturn]
      split <;> refine ⟨?_, by simp, by simp [*]⟩ <;> repeat' apply no_start_append
      all_goals first | exact hcc | simp [Event.starts]
    · subst h1
      simp only [Run, hres, kanaliCRDs, h2, h3, fatalThenReturn]
      split <;> refine ⟨?_, by simp, by simp [*]⟩ <;> repeat' apply no_start_append
      all_goals first | exact hcc | simp [Event.starts]
  exact ⟨key.1, fun a ha => key.1 _ ha trivial, fun hr => key.1 _ hr trivial, key.2.1, key.2.2⟩

/-- Witness for C8: the clientsets are created and `EnsureCRDs` fails. -/
theorem Run_startup_failure_witness :
    (∀ e ∈ (Run schemaFailureEnv).2, ¬ e.starts) ∧
      (∀ a : Actor, Event.Add a ∉ (Run schemaFailureEnv).2) ∧
      Event.groupRun ∉ (Run schemaFailureEnv).2 ∧
      Event.Fatal (GoError.errorf (timeoutText "apiproxies.kanali.io")).Error ∈
        (Run schemaFailureEnv).2 ∧
      (Run schemaFailureEnv).1 = if schemaFailureEnv.fatalExits = true then Outcome.exited 1
        else Outcome.returned (some (GoError.errorf (timeoutText "apiproxies.kanali.io"))) :=
  Run_startup_failure schemaFailureEnv (GoError.errorf (timeoutText "apiproxies.kanali.io"))
    (Or.inr (Or.inl ⟨rfl, rfl⟩))

/-- C9, as stated, fails: when the kubeconfig cannot be read, `Run` ends without a single
call of `EnsureCRDs`. -/
theorem C9_counterexample :
    (Run brokenConfigEnv).2 = [Event.GetRestConfig, Event.Fatal "invalid configuration"] ∧
    (Run brokenConfigEnv).2.count (Event.EnsureCRDs
      [CRD.ApiProxyCRD, CRD.ApiKeyCRD, CRD.ApiKeyBindingCRD, CRD.MockTargetCRD]) = 0 ∧
    ∀ crds : List CRD, Event.EnsureCRDs crds ∉ (Run brokenConfigEnv).2 := by
  refine ⟨by decide, by decide, ?_⟩
  intro crds
  have h : (Run brokenConfigEnv).2 =
      [Event.GetRestConfig, Event.Fatal "invalid configuration"] := by decide
  rw [h]
  simp

theorem Run_trace_of_clientsets (env : RunEnv) (h : (createClientsets env).1 = none) :
    ∃ rest : List Event,
      (Run env).2 = ((createClientsets env).2 ++ [Event.NewSharedInformerFactory "kanali",
        Event.NewSharedInformerFactory "k8s", Event.SetGlobalInterface]) ++
        Event.EnsureCRDs kanaliCRDs :: rest ∧
      (∀ crds, Event.EnsureCRDs crds ∉ rest) ∧
      (env.EnsureCRDs kanaliCRDs ≠ none → ∀ e ∈ rest, ¬ e.starts) := by
  rcases hres : createClientsets env with ⟨r, tr⟩
  rw [hres] at h
  simp only at h
  subst h
  cases h2 : env.EnsureCRDs kanaliCRDs with
  | some err =>
    simp only [Run, hres, h2, fatalThenReturn]
    split <;> exact ⟨[Event.Fatal err.Error], by simp, by simp, by simp [Event.starts]⟩
  | none =>
    cases h3 : env.LoadDecryptionKey with
    | some err =>
      simp only [Run, hres, h2, h3, fatalThenReturn]
      split <;> exact ⟨[Event.Info "all customresourcedefinitions successfully created",
        Event.LoadDecryptionKey, Event.Fatal err.Error], by simp, by simp, by simp⟩
    | none =>
      simp only [Run, hres, h2, h3]
      refine ⟨[Event.Info "all customresourcedefinitions successfully created",
        Event.LoadDecryptionKey, Event.tracerNew] ++
        (match env.tracerNew with
          | some tracerErr => [Event.Warn tracerErr.Error]
          | none => []) ++
        [Event.Prepare "gateway", Event.Prepare "profiling", Event.Prepare "prometheus"] ++
        (groupActors env).map Event.Add ++ [Event.groupRun], by simp, ?_, by simp⟩
      intro crds
      cases env.tracerNew <;> simp

/-- C9, amended: in every execution of `Run` in which the clientsets are created,
`EnsureCRDs` is called exactly once (and never otherwise), each time for the four schemas
ApiProxy, ApiKey, ApiKeyBinding and MockTarget, each once; and in every execution, whenever
an actor is added to the run group or the group is run, `EnsureCRDs` has been called before
and has returned `nil`. -/
theorem Run_EnsureCRDs_before_start (env : RunEnv) :
    (Run env).2.count (Event.EnsureCRDs
        [CRD.ApiProxyCRD, CRD.ApiKeyCRD, CRD.ApiKeyBindingCRD, CRD.MockTargetCRD]) =
      (if (createClientsets env).1 = none then 1 else 0) ∧
    (∀ crds : List CRD, Event.EnsureCRDs crds ∈ (Run env).2 →
      crds = [CRD.ApiProxyCRD, CRD.ApiKeyCRD, CRD.ApiKeyBindingCRD, CRD.MockTargetCRD]) ∧
    (∀ (pre post : List Event) (e : Event), (Run env).2 = pre ++ e :: post → e.starts →
      Event.EnsureCRDs [CRD.ApiProxyCRD, CRD.ApiKeyCRD, CRD.ApiKeyBindingCRD,
        CRD.MockTargetCRD] ∈ pre ∧
      env.EnsureCRDs [CRD.ApiProxyCRD, CRD.ApiKeyCRD, CRD.ApiKeyBindingCRD,
        CRD.MockTargetCRD] = none) := by
  have hne := createClientsets_no_ensure env
  have hns := createClientsets_no_start env
  by_cases hc : (createClientsets env).1 = none
  · obtain ⟨rest, htr, hrest, hfail⟩ := Run_trace_of_clientsets env hc
    rw [htr, if_pos hc]
    refine ⟨?_, ?_, ?_⟩
    · have h1 : List.count (Event.EnsureCRDs kanaliCRDs) (createClientsets env).2 = 0 :=
        List.count_eq_zero.mpr (hne _)
      have h2 : List.count (Event.EnsureCRDs kanaliCRDs) rest = 0 :=
        List.count_eq_zero.mpr (hrest _)
      change List.count (Event.EnsureCRDs kanaliCRDs) _ = 1
      simp [List.count_append, List.count_cons, h1, h2]
    · intro crds hmem
      simp only [List.mem_append, List.mem_cons, List.mem_singleton, List.not_mem_nil] at hmem
      rcases hmem with (hm | hm) | hm | hm
      · exact absurd hm (hne crds)
      · simp at hm
      · simpa [kanaliCRDs] using hm
      · exact absurd hm (hrest crds)
    · intro pre post e hsplit hstart
      have hA : e ∉ (createClientsets env).2 ++ [Event.NewSharedInformerFactory "kanali",
          Event.NewSharedInformerFactory "k8s", Event.SetGlobalInterface] := by
        intro hm
        rcases List.mem_append.mp hm with hm | hm
        · exact hns e hm hstart
        · simp at hm
          rcases hm with rfl | rfl | rfl <;> simp [Event.starts] at hstart
      have hx : e ≠ Event.EnsureCRDs kanaliCRDs := by
        rintro rfl
        simp [Event.starts] at hstart
      refine ⟨mem_before _ e rest post _ pre hsplit hA hx, ?_⟩
      by_contra hfailed
      have hmem : e ∈ pre ++ e :: post := by simp
      rw [← hsplit] at hmem
      simp only [List.mem_append, List.mem_cons, List.mem_singleton, List.not_mem_nil] at hmem
      rcases hmem with hm | hm | hm
      · exact hA (by simpa using hm)
      · exact hx hm
      · exact hfail hfailed e hm hstart
  · rw [if_neg hc]
    obtain ⟨err, herr⟩ := Option.ne_none_iff_exists'.mp hc
    have hrun : (Run env).2 = (createClientsets env).2 ++ [Event.Fatal err.Error] := by
      rcases hres : createClientsets env with ⟨r, tr⟩
      rw [hres] at herr
      simp only at herr
      subst herr
      simp only [Run, hres, fatalThenReturn]
      split <;> rfl
    rw [hrun]
    refine ⟨?_, ?_, ?_⟩
    · have h1 : List.count (Event.EnsureCRDs kanaliCRDs) (createClientsets env).2 = 0 :=
        List.count_eq_zero.mpr (hne _)
      change List.count (Event.EnsureCRDs kanaliCRDs) _ = 0
      simp [List.count_append, List.count_cons, h1]
    · intro crds hmem
      rcases List.mem_append.mp hmem with hm | hm
      · exact absurd hm (hne crds)
      · simp at hm
    · intro pre post e hsplit hstart
      exfalso
      refine no_start_split _ pre post e ?_ hsplit hstart
      exact no_start_append _ _ hns (by simp [Event.starts])

/-- Witness for C9: in the healthy environment the first
addition to the run group, that of the ApiProxy controller, comes after the call of
`EnsureCRDs`, which returned `nil`. -/
theorem Run_EnsureCRDs_before_start_witness :
    Event.EnsureCRDs [CRD.ApiProxyCRD, CRD.ApiKeyCRD, CRD.ApiKeyBindingCRD,
        CRD.MockTargetCRD] ∈ healthyPrefix ∧
      healthyEnv.EnsureCRDs [CRD.ApiProxyCRD, CRD.ApiKeyCRD, CRD.ApiKeyBindingCRD,
        CRD.MockTargetCRD] = none :=
  (Run_EnsureCRDs_before_start healthyEnv).2.2 healthyPrefix healthySuffix
    (Event.Add Actor.ApiProxyController) (by decide) trivial

/-! ## The schema readiness gate: the text of the error and the order of the scan -/

theorem scanConditions_skip (name : String)
    (rest : List CustomResourceDefinitionCondition) :
    ∀ pre : List CustomResourceDefinitionCondition,
      (∀ d ∈ pre, ¬ IsEstablishedTrue d ∧ ¬ IsNamesAcceptedFalse d) →
      scanConditions name (pre ++ rest) = scanConditions name rest
  | [], _ => rfl
  | d :: pre, h => by
    have hd := h d (List.mem_cons_self _ _)
    have ih := scanConditions_skip name rest pre (fun x hx => h x (List.mem_cons_of_mem _ hx))
    unfold IsEstablishedTrue IsNamesAcceptedFalse at hd
    simp only [List.cons_append, scanConditions, ih]
    split_ifs <;> simp_all

theorem scanConditions_congr (name : String)
    (r1 r2 : List CustomResourceDefinitionCondition)
    (h : scanConditions name r1 = scanConditions name r2) :
    ∀ pre : List CustomResourceDefinitionCondition,
      scanConditions name (pre ++ r1) = scanConditions name (pre ++ r2)
  | [] => h
  | d :: pre => by
    have ih := scanConditions_congr name r1 r2 h pre
    rw [List.cons_append, List.cons_append, scanConditions, scanConditions, ih]

theorem scanConditions_head_conflict (name : String) (c : CustomResourceDefinitionCondition)
    (post : List CustomResourceDefinitionCondition) (hc : IsNamesAcceptedFalse c) :
    scanConditions name (c :: post) =
      (false, some (GoError.errorf (namingConflictText c.Reason name))) := by
  simp [scanConditions, hc.1, hc.2, established_ne_namesAccepted.symm]

theorem scanConditions_error (name : String) (e : GoError) :
    ∀ conds : List CustomResourceDefinitionCondition,
      (scanConditions name conds).2 = some e →
      ∃ pre c post, conds = pre ++ c :: post ∧ IsNamesAcceptedFalse c ∧
        (∀ d ∈ pre, ¬ IsEstablishedTrue d ∧ ¬ IsNamesAcceptedFalse d) ∧
        e = GoError.errorf (namingConflictText c.Reason name)
  | [], h => by simp [scanConditions] at h
  | c :: conds, h => by
    by_cases hE : IsEstablishedTrue c
    · simp [scanConditions, hE.1, hE.2] at h
    · by_cases hN : IsNamesAcceptedFalse c
      · rw [scanConditions_head_conflict name c conds hN] at h
        exact ⟨[], c, conds, rfl, hN, by simp, by simpa using h.symm⟩
      · have hskip := scanConditions_skip name conds [c] (by simpa using ⟨hE, hN⟩)
        rw [List.singleton_append] at hskip
        rw [hskip] at h
        obtain ⟨pre, d, post, h1, h2, h3, h4⟩ := scanConditions_error name e conds h
        refine ⟨c :: pre, d, post, by simp [h1], h2, ?_, h4⟩
        intro x hx
        rcases List.mem_cons.mp hx with rfl | hx
        · exact ⟨hE, hN⟩
        · exact h3 x hx

theorem backoffLoop_last (i : CRDClient) (crd : CustomResourceDefinition) :
    ∀ (left idx : Nat) (t : PollTrace),
      (backoffLoop (condition i crd) idx left t).1 = some GoError.errWaitTimeout ∨
      ∃ k, (backoffLoop (condition i crd) idx left t).2.gets.length = k + 1 ∧
        stops i crd k ∧
        (backoffLoop (condition i crd) idx left t).1 = (pollOutcome i crd k).2
  | 0, _, _ => Or.inl (by simp [backoffLoop])
  | left + 1, idx, t => by
    obtain ⟨t1, h1, h2⟩ := backoffLoop_succ i crd idx left t
    rw [h2]
    by_cases hst : stops i crd t.gets.length
    · rw [if_pos hst]
      exact Or.inr ⟨t.gets.length, by simp [h1], hst, rfl⟩
    · rw [if_neg hst]
      exact backoffLoop_last i crd left (idx + 1) t1

/-- C11: whenever `WaitForEstablished` returns the naming conflict error, its text is
"due to the naming conflict R, the CustomResourceDefinition X will never become
established", with `R` the reason of the first `NamesAccepted` condition of status `False`
in the fetched list and `X` the name of the fetched resource.  First part: a poll that
fetches a list whose first terminal condition is `NamesAccepted=False` ends the call with
that text.  Second part: when the last poll fetched a resource and the call returns an error
other than the timeout error, the error has that text, for the first `NamesAccepted=False`
condition of the list.  Third part: the status `[NamesAccepted=False (reason R),
Established=False]` yields the error with reason `R`, for every budget of at least one. -/
theorem WaitForEstablished_namingConflict_text (N : Int) (i : CRDClient)
    (crd : CustomResourceDefinition) (stopCh : StopCh) :
    (∀ (k : Nat) (fetched : CustomResourceDefinition)
        (pre post : List CustomResourceDefinitionCondition)
        (c : CustomResourceDefinitionCondition),
      k < (WaitForEstablished N i crd stopCh).2.polls →
      i k crd.Name = Except.ok fetched →
      fetched.Conditions = pre ++ c :: post →
      (c.type = NamesAccepted ∧ c.Status = ConditionFalse) →
      (∀ d ∈ pre, ¬ (d.type = Established ∧ d.Status = ConditionTrue) ∧
        ¬ (d.type = NamesAccepted ∧ d.Status = ConditionFalse)) →
      (WaitForEstablished N i crd stopCh).1 = some (GoError.errorf
        ("due to the naming conflict " ++ c.Reason ++ ", the CustomResourceDefinition " ++
          fetched.Name ++ " will never become established")) ∧
      (WaitForEstablished N i crd stopCh).2.polls = k + 1) ∧
    (∀ (k : Nat) (fetched : CustomResourceDefinition) (e : GoError),
      (WaitForEstablished N i crd stopCh).2.polls = k + 1 →
      i k crd.Name = Except.ok fetched →
      (WaitForEstablished N i crd stopCh).1 = some e →
      e ≠ GoError.errorf ("the CustomResourceDefinition " ++ crd.Name ++
        " was not established within a reasonable amount of time") →
      ∃ pre c post, fetched.Conditions = pre ++ c :: post ∧
        (c.type = NamesAccepted ∧ c.Status = ConditionFalse) ∧
        (∀ d ∈ pre, ¬ (d.type = Established ∧ d.Status = ConditionTrue) ∧
          ¬ (d.type = NamesAccepted ∧ d.Status = ConditionFalse)) ∧
        e = GoError.errorf
          ("due to the naming conflict " ++ c.Reason ++ ", the CustomResourceDefinition " ++
            fetched.Name ++ " will never become established")) ∧
    (∀ (M : Nat) (name R m1 r2 m2 : String),
      (WaitForEstablished (M + 1)
        (constClient ⟨name, [⟨NamesAccepted, ConditionFalse, R, m1⟩,
          ⟨Established, ConditionFalse, r2, m2⟩]⟩) crd stopCh).1 =
        some (GoError.errorf
          ("due to the naming conflict " ++ R ++ ", the CustomResourceDefinition " ++
            name ++ " will never become established"))) := by
  have partA : ∀ (N : Int) (i : CRDClient) (k : Nat) (fetched : CustomResourceDefinition)
      (pre post : List CustomResourceDefinitionCondition)
      (c : CustomResourceDefinitionCondition),
      k < (WaitForEstablished N i crd stopCh).2.polls →
      i k crd.Name = Except.ok fetched →
      fetched.Conditions = pre ++ c :: post →
      IsNamesAcceptedFalse c →
      (∀ d ∈ pre, ¬ IsEstablishedTrue d ∧ ¬ IsNamesAcceptedFalse d) →
      (WaitForEstablished N i crd stopCh).1 = some (GoError.errorf
        (namingConflictText c.Reason fetched.Name)) ∧
      (WaitForEstablished N i crd stopCh).2.polls = k + 1 := by
    intro N i k fetched pre post c hpoll hfetch hconds hc hpre
    have hout : pollOutcome i crd k =
        (false, some (GoError.errorf (namingConflictText c.Reason fetched.Name))) := by
      simp only [pollOutcome, hfetch, hconds]
      rw [scanConditions_skip _ _ pre hpre]
      exact scanConditions_head_conflict _ c post hc
    have hstop : stops i crd k := Or.inl (by rw [hout]; simp)
    rw [PollTrace.polls, WaitForEstablished_trace] at hpoll
    have h := backoffLoop_stops i crd N.toNat 0 PollTrace.init k (Nat.zero_le _) hpoll hstop
    rw [PollTrace.polls, WaitForEstablished_trace, WaitForEstablished_error, h.2, hout]
    exact ⟨by simp, h.1⟩
  refine ⟨partA N i, ?_, ?_⟩
  · intro k fetched e hlast hfetch herr hnot
    rw [PollTrace.polls, WaitForEstablished_trace] at hlast
    rw [WaitForEstablished_error] at herr
    rcases backoffLoop_last i crd N.toNat 0 PollTrace.init with hto | ⟨k1, hk1, _, hres⟩
    · rw [if_pos hto] at herr
      exact absurd (Option.some.inj herr).symm hnot
    · have hk : k1 = k := by omega
      subst hk
      have hout : (pollOutcome i crd k1).2 =
          (scanConditions fetched.Name fetched.Conditions).2 := by
        simp only [pollOutcome, hfetch]
      rw [hres, hout] at herr
      by_cases hto : (scanConditions fetched.Name fetched.Conditions).2 =
          some GoError.errWaitTimeout
      · rw [if_pos hto] at herr
        exact absurd (Option.some.inj herr).symm hnot
      · rw [if_neg hto] at herr
        exact scanConditions_error fetched.Name e fetched.Conditions herr
  · intro M name R m1 r2 m2
    have hfirst := backoffLoop_first
      (constClient ⟨name, [⟨NamesAccepted, ConditionFalse, R, m1⟩,
        ⟨Established, ConditionFalse, r2, m2⟩]⟩) crd 0 M PollTrace.init
    have hM : ((M : Int) + 1).toNat = M + 1 := by omega
    refine (partA (M + 1)
      (constClient ⟨name, [⟨NamesAccepted, ConditionFalse, R, m1⟩,
        ⟨Established, ConditionFalse, r2, m2⟩]⟩) 0
      ⟨name, [⟨NamesAccepted, ConditionFalse, R, m1⟩, ⟨Established, ConditionFalse, r2, m2⟩]⟩
      [] [⟨Established, ConditionFalse, r2, m2⟩]
      ⟨NamesAccepted, ConditionFalse, R, m1⟩ ?_ rfl rfl ⟨rfl, rfl⟩ (by simp)).1
    rw [PollTrace.polls, WaitForEstablished_trace, hM]
    simpa [PollTrace.init] using hfirst

/-- Witness for C11: the test case "will never be established", whose fetched list is
`[notAcceptedCondition, notEstablishedCondition]`, with the default budget of 5. -/
theorem WaitForEstablished_namingConflict_text_witness :
    (WaitForEstablished 5 (constClient (foos [notAcceptedCondition, notEstablishedCondition]))
        (foos [notAcceptedCondition, notEstablishedCondition]) (fun _ => false)).1 =
      some (GoError.errorf
        ("due to the naming conflict " ++ notAcceptedCondition.Reason ++
          ", the CustomResourceDefinition " ++
          (foos [notAcceptedCondition, notEstablishedCondition]).Name ++
          " will never become established")) ∧
    (WaitForEstablished 5 (constClient (foos [notAcceptedCondition, notEstablishedCondition]))
        (foos [notAcceptedCondition, notEstablishedCondition]) (fun _ => false)).2.polls =
      0 + 1 :=
  (WaitForEstablished_namingConflict_text 5
    (constClient (foos [notAcceptedCondition, notEstablishedCondition]))
    (foos [notAcceptedCondition, notEstablishedCondition]) (fun _ => false)).1
    0 (foos [notAcceptedCondition, notEstablishedCondition]) [] [notEstablishedCondition]
    notAcceptedCondition (by decide) rfl rfl ⟨rfl, rfl⟩ (by simp)

/-- C12: within one poll the fetched conditions are scanned in list order and the first
terminal condition decides.  When a `NamesAccepted=False` condition stands before every
`Established=True` condition the poll reports the naming conflict error; when an
`Established=True` condition stands before every `NamesAccepted=False` condition the poll
reports success; a condition that is neither (`Established` with another status,
`NamesAccepted` with another status, any other type) can be dropped from the list without
changing the verdict, and a list of such conditions alone leaves the poll undecided. -/
theorem pollOutcome_first_terminal (i : CRDClient) (crd : CustomResourceDefinition)
    (k : Nat) (fetched : CustomResourceDefinition)
    (hfetch : i k crd.Name = Except.ok fetched) :
    (∀ (pre post : List CustomResourceDefinitionCondition)
        (c : CustomResourceDefinitionCondition),
      fetched.Conditions = pre ++ c :: post →
      (c.type = NamesAccepted ∧ c.Status = ConditionFalse) →
      (∀ d ∈ pre, ¬ (d.type = Established ∧ d.Status = ConditionTrue)) →
      ∃ d ∈ fetched.Conditions, (d.type = NamesAccepted ∧ d.Status = ConditionFalse) ∧
        pollOutcome i crd k = (false, some (GoError.errorf
          ("due to the naming conflict " ++ d.Reason ++ ", the CustomResourceDefinition " ++
            fetched.Name ++ " will never become established")))) ∧
    (∀ (pre post : List CustomResourceDefinitionCondition)
        (c : CustomResourceDefinitionCondition),
      fetched.Conditions = pre ++ c :: post →
      (c.type = Established ∧ c.Status = ConditionTrue) →
      (∀ d ∈ pre, ¬ (d.type = NamesAccepted ∧ d.Status = ConditionFalse)) →
      pollOutcome i crd k = (true, none)) ∧
    (∀ (pre post : List CustomResourceDefinitionCondition)
        (d : CustomResourceDefinitionCondition),
      fetched.Conditions = pre ++ d :: post →
      ¬ (d.type = Established ∧ d.Status = ConditionTrue) →
      ¬ (d.type = NamesAccepted ∧ d.Status = ConditionFalse) →
      pollOutcome i crd k = scanConditions fetched.Name (pre ++ post)) ∧
    ((∀ d ∈ fetched.Conditions, ¬ (d.type = Established ∧ d.Status = ConditionTrue) ∧
        ¬ (d.type = NamesAccepted ∧ d.Status = ConditionFalse)) →
      pollOutcome i crd k = (false, none)) := by
  have hout : pollOutcome i crd k = scanConditions fetched.Name fetched.Conditions := by
    simp only [pollOutcome, hfetch]
  refine ⟨?_, ?_, ?_, ?_⟩
  · intro pre post c hconds hc hpre
    obtain ⟨d, hd, hdc, hscan⟩ := scanConditions_conflict fetched.Name c post hc pre hpre
    exact ⟨d, hconds ▸ hd, hdc, by rw [hout, hconds]; exact hscan⟩
  · intro pre post c hconds hc hpre
    rw [hout, hconds]
    exact scanConditions_established fetched.Name c post hc pre hpre
  · intro pre post d hconds hE hN
    rw [hout, hconds]
    refine scanConditions_congr fetched.Name (d :: post) post ?_ pre
    exact scanConditions_skip fetched.Name post [d] (by simpa using ⟨hE, hN⟩)
  · intro h
    rw [hout]
    exact scanConditions_pending fetched.Name fetched.Conditions h

/-- Witness for C12: the list `[notEstablishedCondition, acceptedCondition,
establishedCondition, notAcceptedCondition]`, in which the first two conditions do not
decide and `Established=True` comes before `NamesAccepted=False`: the poll reports
success. -/
theorem pollOutcome_first_terminal_witness :
    pollOutcome
        (constClient (foos [notEstablishedCondition, acceptedCondition, establishedCondition,
          notAcceptedCondition]))
        (foos []) 0 = (true, none) :=
  (pollOutcome_first_terminal
    (constClient (foos [notEstablishedCondition, acceptedCondition, establishedCondition,
      notAcceptedCondition]))
    (foos []) 0
    (foos [notEstablishedCondition, acceptedCondition, establishedCondition,
      notAcceptedCondition]) rfl).2.1
    [notEstablishedCondition, acceptedCondition] [notAcceptedCondition] establishedCondition
    rfl ⟨rfl, rfl⟩ (by decide)

/-- C13, as stated, fails: the first fetch fails with the very value
`utilwait.ErrWaitTimeout`; polling stops after that one poll although four attempts remain,
but the error returned is the timeout error, not the fetch error. -/
theorem C13_counterexample :
    failingClient GoError.errWaitTimeout 0 (foos []).Name =
      Except.error GoError.errWaitTimeout ∧
    (WaitForEstablished 5 (failingClient GoError.errWaitTimeout) (foos [])
      (fun _ => false)).2.polls = 1 ∧
    (WaitForEstablished 5 (failingClient GoError.errWaitTimeout) (foos [])
      (fun _ => false)).1 = some (GoError.errorf
        "the CustomResourceDefinition foos.bar.io was not established within a reasonable amount of time") ∧
    (WaitForEstablished 5 (failingClient GoError.errWaitTimeout) (foos [])
      (fun _ => false)).1 ≠ some GoError.errWaitTimeout := by
  refine ⟨rfl, by decide, by decide, by decide⟩

/-- C13, amended: if the fetch fails on a poll of `WaitForEstablished`, that poll is the
last one, whatever is left of the budget, and the fetch error is returned unchanged unless
it is the value `utilwait.ErrWaitTimeout` itself, which is reported as the timeout error. -/
theorem WaitForEstablished_fetch_error (N : Int) (i : CRDClient)
    (crd : CustomResourceDefinition) (stopCh : StopCh) (k : Nat) (err : GoError)
    (hpoll : k < (WaitForEstablished N i crd stopCh).2.polls)
    (hfetch : i k crd.Name = Except.error err) :
    (WaitForEstablished N i crd stopCh).2.polls = k + 1 ∧
    (err ≠ GoError.errWaitTimeout → (WaitForEstablished N i crd stopCh).1 = some err) ∧
    (err = GoError.errWaitTimeout →
      (WaitForEstablished N i crd stopCh).1 = some (GoError.errorf
        ("the CustomResourceDefinition " ++ crd.Name ++
          " was not established within a reasonable amount of time"))) := by
  have hout : pollOutcome i crd k = (false, some err) := by
    simp only [pollOutcome, hfetch]
  have hstop : stops i crd k := Or.inl (by rw [hout]; simp)
  rw [PollTrace.polls, WaitForEstablished_trace] at hpoll
  have h := backoffLoop_stops i crd N.toNat 0 PollTrace.init k (Nat.zero_le _) hpoll hstop
  rw [PollTrace.polls, WaitForEstablished_trace, WaitForEstablished_error, h.2, hout]
  refine ⟨h.1, ?_, ?_⟩
  · intro hne
    simp [hne]
  · intro he
    simp [he, timeoutText]

/-- Witness for C13: every fetch is refused; with the default budget of 5 the call makes
one poll and returns the error of the client. -/
theorem WaitForEstablished_fetch_error_witness :
    (WaitForEstablished 5 (failingClient (GoError.client "connection refused")) (foos [])
        (fun _ => false)).2.polls = 0 + 1 ∧
    (WaitForEstablished 5 (failingClient (GoError.client "connection refused")) (foos [])
        (fun _ => false)).1 = some (GoError.client "connection refused") :=
  ⟨(WaitForEstablished_fetch_error 5 (failingClient (GoError.client "connection refused"))
      (foos []) (fun _ => false) 0 (GoError.client "connection refused")
      (by decide) rfl).1,
   (WaitForEstablished_fetch_error 5 (failingClient (GoError.client "connection refused"))
      (foos []) (fun _ => false) 0 (GoError.client "connection refused")
      (by decide) rfl).2.1 (by decide)⟩

/-! ## Start-up: a tracer that cannot be created -/

theorem createClientsets_tracerNew (env : RunEnv) (t : Option GoError) :
    createClientsets { env with tracerNew := t } = createClientsets env := rfl

theorem Run_outcome_of_startup (env : RunEnv) (hcc : (createClientsets env).1 = none)
    (hcrd : env.EnsureCRDs kanaliCRDs = none) (hkey : env.LoadDecryptionKey = none) :
    (Run env).1 = Outcome.returned (env.groupRun (groupActors env)) := by
  rcases hres : createClientsets env with ⟨r, tr⟩
  rw [hres] at hcc
  simp only at hcc
  subst hcc
  simp only [Run, hres, hcrd, hkey]

/-- C14: when the clientsets, the schemas and the decryption key succeed and the creation
of the tracer fails, `Run` logs the tracer error as a warning, never through `Fatal`, and
returns what the run of the group returns, whichever error the tracer gave.  The group holds
the four resource controllers, the two informers, the metrics and gateway servers, the
profiling server exactly when the profiling flag is on, and the context monitor: the group
of the same run with a working tracer, less the tracer.  These are added in this order and
then the group is run. -/
theorem Run_tracer_failure (env : RunEnv) (tracerErr : GoError)
    (hcc : (createClientsets env).1 = none)
    (hcrd : env.EnsureCRDs
      [CRD.ApiProxyCRD, CRD.ApiKeyCRD, CRD.ApiKeyBindingCRD, CRD.MockTargetCRD] = none)
    (hkey : env.LoadDecryptionKey = none)
    (htr : env.tracerNew = some tracerErr) :
    (Run env).1 = Outcome.returned (env.groupRun
      ([Actor.ApiProxyController, Actor.ApiKeyController, Actor.ApiKeyBindingController,
        Actor.MockTargetController, Actor.ServicesInformer, Actor.SecretsInformer,
        Actor.MetricsServer, Actor.GatewayServer] ++
        (if env.FlagProfilingEnabled = true then [Actor.ProfilingServer] else []) ++
        [Actor.MonitorContext])) ∧
    (∀ other : GoError, (Run { env with tracerNew := some other }).1 = (Run env).1) ∧
    (∃ pre : List Event,
      (Run env).2 = pre ++
        ([Actor.ApiProxyController, Actor.ApiKeyController, Actor.ApiKeyBindingController,
          Actor.MockTargetController, Actor.ServicesInformer, Actor.SecretsInformer,
          Actor.MetricsServer, Actor.GatewayServer] ++
          (if env.FlagProfilingEnabled = true then [Actor.ProfilingServer] else []) ++
          [Actor.MonitorContext]).map Event.Add ++ [Event.groupRun] ∧
      (∀ e ∈ pre, ¬ e.starts) ∧ Event.Warn tracerErr.Error ∈ pre ∧
      ∀ msg : String, Event.Fatal msg ∉ pre) ∧
    Event.Add Actor.Tracer ∉ (Run env).2 ∧
    (Event.Add Actor.ProfilingServer ∈ (Run env).2 ↔ env.FlagProfilingEnabled = true) ∧
    groupActors env = (groupActors { env with tracerNew := none }).erase Actor.Tracer := by
  have hns := createClientsets_no_start env
  have hact : groupActors env =
      [Actor.ApiProxyController, Actor.ApiKeyController, Actor.ApiKeyBindingController,
        Actor.MockTargetController, Actor.ServicesInformer, Actor.SecretsInformer,
        Actor.MetricsServer, Actor.GatewayServer] ++
        (if env.FlagProfilingEnabled = true then [Actor.ProfilingServer] else []) ++
        [Actor.MonitorContext] := by
    simp [groupActors, htr]
  have hfatal : ∀ msg : String, Event.Fatal msg ∉ (createClientsets env).2 := by
    intro msg
    unfold createClientsets
    split
    · simp
    · split
      · simp
      · split
        · simp
        · split <;> simp
  have hact2 : ∀ other : GoError,
      groupActors { env with tracerNew := some other } = groupActors env := by
    intro other
    simp [groupActors, htr]
  rcases hres : createClientsets env with ⟨r, tr⟩
  rw [hres] at hcc hns hfatal
  simp only at hcc hns hfatal
  subst hcc
  have hrun : Run env = (Outcome.returned (env.groupRun (groupActors env)),
      (tr ++ [Event.NewSharedInformerFactory "kanali", Event.NewSharedInformerFactory "k8s",
        Event.SetGlobalInterface,
        Event.EnsureCRDs [CRD.ApiProxyCRD, CRD.ApiKeyCRD, CRD.ApiKeyBindingCRD,
          CRD.MockTargetCRD],
        Event.Info "all customresourcedefinitions successfully created",
        Event.LoadDecryptionKey, Event.tracerNew, Event.Warn tracerErr.Error,
        Event.Prepare "gateway", Event.Prepare "profiling", Event.Prepare "prometheus"]) ++
        (groupActors env).map Event.Add ++ [Event.groupRun]) := by
    simp [Run, hres, kanaliCRDs, hcrd, hkey, htr]
  have hrun2 : ∀ other : GoError, (Run { env with tracerNew := some other }).1 =
      Outcome.returned (env.groupRun (groupActors env)) := by
    intro other
    have h := Run_outcome_of_startup { env with tracerNew := some other }
      (by rw [createClientsets_tracerNew, hres]) hcrd hkey
    rw [h, hact2 other]
  refine ⟨by rw [hrun, hact], fun other => by rw [hrun2 other, hrun], ?_, ?_, ?_, ?_⟩
  · refine ⟨_, by rw [hrun, hact], ?_, by simp, ?_⟩
    · exact no_start_append _ _ hns (by simp [Event.starts])
    · intro msg hm
      rcases List.mem_append.mp hm with hm | hm
      · exact hfatal msg hm
      · simp at hm
  · rw [hrun, hact]
    intro hm
    simp only [List.mem_append, List.mem_map, List.mem_cons, List.mem_singleton] at hm
    rcases hm with (((hm | hm) | hm)) | hm
    · exact hns _ hm trivial
    · simp at hm
    · obtain ⟨a, ha, hEq⟩ := hm
      cases hp : env.FlagProfilingEnabled <;> simp [hp] at ha <;> simp_all
    · simp at hm
  · rw [hrun, hact]
    constructor
    · intro hm
      by_contra hp
      simp only [List.mem_append, List.mem_map, List.mem_cons, List.mem_singleton] at hm
      rcases hm with (((hm | hm) | hm)) | hm
      · exact hns _ hm trivial
      · simp at hm
      · obtain ⟨a, ha, hEq⟩ := hm
        simp [hp] at ha
        simp_all
      · simp at hm
    · intro hp
      simp [hp]
  · rw [hact]
    cases hp : env.FlagProfilingEnabled <;> simp [groupActors]

/-- Witness for C14: every collaborator succeeds except the tracer, and profiling is on;
the group run holds the profiling server and no tracer. -/
theorem Run_tracer_failure_witness :
    (Run tracerFailureEnv).1 = Outcome.returned (tracerFailureEnv.groupRun
      ([Actor.ApiProxyController, Actor.ApiKeyController, Actor.ApiKeyBindingController,
        Actor.MockTargetController, Actor.ServicesInformer, Actor.SecretsInformer,
        Actor.MetricsServer, Actor.GatewayServer] ++
        (if tracerFailureEnv.FlagProfilingEnabled = true then [Actor.ProfilingServer] else []) ++
        [Actor.MonitorContext])) ∧
    Event.Add Actor.Tracer ∉ (Run tracerFailureEnv).2 :=
  ⟨(Run_tracer_failure tracerFailureEnv (GoError.client "no tracer configuration")
      rfl rfl rfl rfl).1,
   (Run_tracer_failure tracerFailureEnv (GoError.client "no tracer configuration")
      rfl rfl rfl rfl).2.2.2.1⟩

end Kanali
